import Mathlib

/-!
Verification of the geometric layout-reconstruction core of the Mount
Barker District Council development-application scraper.  The definitions
below are shallow embeddings of the two scraper variants found in the
source: the anchor-based directional-proximity design (calculateDistance,
isOverlap, findClosestElement and the per-page field-extraction body of
parsePdf) and the legacy row-clustering design (convertPdfToText).
Coordinates are modelled as exact rationals; the JavaScript value
Number.MAX_VALUE used as the "infinite distance" sentinel is embedded as
the exact rational value of that IEEE double.
-/

namespace Scraper

/-- Modelled from the spec: lower-casing of one character as performed by
the external JavaScript builtin String.prototype.toLowerCase, restricted
to the ASCII range that occurs in the scraped documents. -/
def charToLower (c : Char) : Char :=
  if 65 ≤ c.toNat ∧ c.toNat ≤ 90 then Char.ofNat (c.toNat + 32) else c

/-- Modelled from the spec: the external JavaScript builtin
String.prototype.toLowerCase (ASCII range). -/
def toLowerCase (s : String) : String :=
  String.mk (s.data.map charToLower)

/-- Modelled from the spec: the external JavaScript builtin
String.prototype.startsWith. -/
def startsWith (s pre : String) : Bool :=
  pre.data.isPrefixOf s.data

/-- The whitespace characters recognised by the JavaScript builtins trim
and the regular expression class backslash-s, restricted to the ASCII
whitespace that can occur in the scraped documents. -/
def isJsWhitespace (c : Char) : Bool :=
  c == ' ' || c == '\t' || c == '\n' || c == '\x0d' || c == '\x0c' || c == '\x0b'

/-- Modelled from the spec: the external JavaScript builtin
String.prototype.trim (ASCII whitespace). -/
def trim (s : String) : String :=
  String.mk (((s.data.dropWhile isJsWhitespace).reverse.dropWhile isJsWhitespace).reverse)

/-- Modelled from the spec: text.replace(/\s/g, ""), removal of every
whitespace character by the external JavaScript regular-expression
engine. -/
def removeWhitespace (s : String) : String :=
  String.mk (s.data.filter fun c => !isJsWhitespace c)

/-- An element (text plus bounding rectangle) in a PDF document, from the
TypeScript interface Element of the anchor-based scraper. -/
structure Element where
  text : String
  x : ℚ
  y : ℚ
  width : ℚ
  height : ℚ
  deriving DecidableEq

/-- The TypeScript enum Direction compiles to JavaScript numbers with
Right = 0.  The geometry functions accept any number and fall through to
the sentinel branch for every other value, so directions are modelled as
natural numbers rather than a two-constructor type. -/
def Direction.Right : ℕ := 0

/-- The TypeScript enum Direction compiles to JavaScript numbers with
Down = 1. -/
def Direction.Down : ℕ := 1

/-- Number.MAX_VALUE, the largest finite IEEE double, as an exact
rational.  Written as an explicit integer numeral so that it evaluates
without unfolding a power; MAX_VALUE_eq below checks that the numeral is
exactly (2^53 - 1) * 2^971. -/
def MAX_VALUE : ℚ := 179769313486231570814527423731704356798070567525844996598917476803157260780028538760589558632766878171540458953514382464234321326889464182768467546703537516986049910576551282076245490090389328944075868508455133942304583236903222948165808559332123348274797826204144723168738177180919299881250404026184124858368

/-- Shallow embedding of calculateDistance: the square of the Euclidean
distance between two elements in the specified direction, with the
MAX_VALUE sentinel returned for pairs that overlap too far back into the
first element (20% of its width to the right, 50% of its height
downwards) and for any direction value other than Right and Down. -/
def calculateDistance (element1 element2 : Element) (direction : ℕ) : ℚ :=
  if direction = Direction.Right then
    let point1x := element1.x + element1.width
    let point1y := element1.y + element1.height / 2
    let point2x := element2.x
    let point2y := element2.y + element2.height / 2
    if point2x < point1x - element1.width / 5 then MAX_VALUE
    else (point2x - point1x) * (point2x - point1x) + (point2y - point1y) * (point2y - point1y)
  else if direction = Direction.Down then
    let point1x := element1.x + element1.width / 2
    let point1y := element1.y + element1.height
    let point2x := min (element2.x + element1.width / 2) (element2.x + element2.width)
    let point2y := element2.y
    if point2y < point1y - element1.height / 2 then MAX_VALUE
    else (point2x - point1x) * (point2x - point1x) + (point2y - point1y) * (point2y - point1y)
  else MAX_VALUE

/-- Shallow embedding of isOverlap: whether the two elements overlap in
the specified direction (y-ranges intersect for Right, x-ranges intersect
for Down, false for every other direction value). -/
def isOverlap (element1 element2 : Element) (direction : ℕ) : Bool :=
  if direction = Direction.Right then
    decide (element2.y < element1.y + element1.height) &&
      decide (element2.y + element2.height > element1.y)
  else if direction = Direction.Down then
    decide (element2.x < element1.x + element1.width) &&
      decide (element2.x + element2.width > element1.x)
  else false

/-- The initial "closest" placeholder of findClosestElement: position at
Number.MAX_VALUE in both coordinates with zero width and height.  In the
source its text field is undefined and serves as the "never replaced"
flag; here the running closest element is kept in an Option whose
geometry defaults to this placeholder, which is equivalent because the
source only ever stores real elements of the input list into
closestElement after initialisation. -/
def sentinelElement : Element :=
  { text := "", x := MAX_VALUE, y := MAX_VALUE, width := 0, height := 0 }

/-- The anchor lookup of findClosestElement: the first element of the
list whose text starts, case-insensitively, with the given label. -/
def anchorFor (elements : List Element) (text : String) : Option Element :=
  elements.find? fun element => startsWith (toLowerCase element.text) (toLowerCase text)

/-- One iteration of the findClosestElement scan: replace the running
closest element when the candidate overlaps the anchor and is strictly
closer than the current closest (the placeholder when none yet). -/
def closerStep (matchingElement : Element) (direction : ℕ)
    (closest : Option Element) (element : Element) : Option Element :=
  if isOverlap matchingElement element direction &&
      decide (calculateDistance matchingElement element direction <
        calculateDistance matchingElement (closest.getD sentinelElement) direction) then
    some element
  else closest

/-- Shallow embedding of findClosestElement: find the anchor by
case-insensitive prefix match, then scan all elements keeping the
strictly closest overlapping one; none when the anchor is missing or the
placeholder was never replaced. -/
def findClosestElement (elements : List Element) (text : String) (direction : ℕ) :
    Option Element :=
  match anchorFor elements text with
  | none => none
  | some matchingElement => elements.foldl (closerStep matchingElement direction) none

/-! ### The per-page field-extraction protocol of parsePdf -/

/-- The value of one digit character, none for other characters. -/
def digitVal (c : Char) : Option ℕ :=
  if 48 ≤ c.toNat ∧ c.toNat ≤ 57 then some (c.toNat - 48) else none

/-- Two digit characters as a number, none unless both are digits. -/
def digits2 (a b : Char) : Option ℕ :=
  match digitVal a, digitVal b with
  | some x, some y => some (10 * x + y)
  | _, _ => none

/-- Four digit characters as a number, none unless all are digits. -/
def digits4 (a b c d : Char) : Option ℕ :=
  match digitVal a, digitVal b, digitVal c, digitVal d with
  | some w, some x, some y, some z => some (((w * 10 + x) * 10 + y) * 10 + z)
  | _, _, _, _ => none

/-- Modelled from the spec: the strict parse of the external moment
library call moment(text, "D/MM/YYYY", true), which accepts exactly a
one- or two-digit day, a slash, a two-digit month, a slash and a
four-digit year, with nothing else in the string.  Returns the raw
(day, month, year) numbers before calendar validation. -/
def parseDMY (s : String) : Option (ℕ × ℕ × ℕ) :=
  match s.data with
  | [d1, '/', m1, m2, '/', y1, y2, y3, y4] =>
    match digitVal d1, digits2 m1 m2, digits4 y1 y2 y3 y4 with
    | some d, some m, some y => some (d, m, y)
    | _, _, _ => none
  | [da, db, '/', m1, m2, '/', y1, y2, y3, y4] =>
    match digits2 da db, digits2 m1 m2, digits4 y1 y2 y3 y4 with
    | some d, some m, some y => some (d, m, y)
    | _, _, _ => none
  | _ => none

/-- The Gregorian leap-year rule. -/
def isLeapYear (y : ℕ) : Bool :=
  (y % 4 == 0 && y % 100 != 0) || y % 400 == 0

/-- Number of days of a month in a year. -/
def daysInMonth (y m : ℕ) : ℕ :=
  if m == 2 then (if isLeapYear y then 29 else 28)
  else if m == 4 || m == 6 || m == 9 || m == 11 then 30
  else 31

/-- Modelled from the spec: the calendar validation performed by the
external moment library (isValid) on a strictly parsed day/month/year. -/
def validDMY (d m y : ℕ) : Bool :=
  decide (1 ≤ m) && decide (m ≤ 12) && decide (1 ≤ d) && decide (d ≤ daysInMonth y m)

/-- A number padded with leading zeroes to two digits. -/
def pad2 (n : ℕ) : String :=
  if n < 10 then "0" ++ toString n else toString n

/-- A number padded with leading zeroes to four digits. -/
def pad4 (n : ℕ) : String :=
  if n < 10 then "000" ++ toString n
  else if n < 100 then "00" ++ toString n
  else if n < 1000 then "0" ++ toString n
  else toString n

/-- Modelled from the spec: strict-parse the text as D/MM/YYYY with the
external moment library and, when the result is a valid calendar date,
format it as YYYY-MM-DD; the empty string otherwise.  This is the
composition moment(text, "D/MM/YYYY", true) / isValid /
format("YYYY-MM-DD") used for the receivedDate field. -/
def strictDateISO (s : String) : String :=
  match parseDMY s with
  | some (d, m, y) => if validDMY d m y then pad4 y ++ "-" ++ pad2 m ++ "-" ++ pad2 d else ""
  | none => ""

/-- The record assembled for one page by parsePdf. -/
structure DevelopmentApplication where
  applicationNumber : String
  address : String
  description : String
  informationUrl : String
  commentUrl : String
  scrapeDate : String
  receivedDate : String
  deriving DecidableEq

/-- The constant comment address of the scraper. -/
def CommentUrl : String := "mailto:council@mountbarker.sa.gov.au"

deriving instance DecidableEq for Except

/-- applicationNumberElement: nearest element right of "Dev App No". -/
def applicationNumberElementOf (elements : List Element) : Option Element :=
  findClosestElement elements "Dev App No" Direction.Right

/-- descriptionElement: nearest element right of the applicationNumber
element's own text, only attempted when that element was found. -/
def descriptionElementOf (elements : List Element) : Option Element :=
  match applicationNumberElementOf elements with
  | some applicationNumberElement =>
    findClosestElement elements applicationNumberElement.text Direction.Right
  | none => none

/-- receivedDateElement: nearest element right of the label
"Application Rec'd Council" (the apostrophe written as an escape). -/
def receivedDateElementOf (elements : List Element) : Option Element :=
  findClosestElement elements "Application Rec\x27d Council" Direction.Right

/-- addressElement: nearest element below "Property Detail". -/
def addressElementOf (elements : List Element) : Option Element :=
  findClosestElement elements "Property Detail" Direction.Down

/-- The validation gate of parsePdf: the page is skipped when the
application-number element is absent or trims to the empty string, the
address element is absent or trims to the empty string, or the trimmed
address itself starts (case-insensitively) with "property detail". -/
def validationFails (elements : List Element) : Bool :=
  match applicationNumberElementOf elements, addressElementOf elements with
  | some applicationNumberElement, some addressElement =>
    trim applicationNumberElement.text == "" ||
      trim addressElement.text == "" ||
      startsWith (toLowerCase (trim addressElement.text)) "property detail"
  | _, _ => true

/-- The exception produced when the description derivation dereferences
an undefined descriptionElement: the source guards the derivation with
descriptionElement !== null, which is true in JavaScript when the value
is undefined, and then reads descriptionElement.text, raising a
TypeError. -/
def descriptionTypeError : String :=
  "TypeError: cannot read text of undefined"

/-- Shallow embedding of the per-page body of the parsePdf loop: resolve
the four anchor-relative elements, apply the validation gate, derive the
receivedDate and description fields and assemble the record.  A skipped
page yields ok none; a well-formed page yields ok (some record); the
error value models the JavaScript TypeError thrown when the description
derivation runs with an absent descriptionElement (the !== null check
does not catch undefined).  The url and scrapeDate arguments model the
document url and the current date moment().format("YYYY-MM-DD"). -/
def parsePage (elements : List Element) (url scrapeDate : String) :
    Except String (Option DevelopmentApplication) :=
  match applicationNumberElementOf elements, addressElementOf elements with
  | some applicationNumberElement, some addressElement =>
    if trim applicationNumberElement.text == "" ||
        trim addressElement.text == "" ||
        startsWith (toLowerCase (trim addressElement.text)) "property detail" then
      Except.ok none
    else
      let receivedDate :=
        match receivedDateElementOf elements with
        | none => ""
        | some receivedDateElement => strictDateISO (trim receivedDateElement.text)
      match descriptionElementOf elements with
      | none => Except.error descriptionTypeError
      | some descriptionElement =>
        let description :=
          if trim descriptionElement.text == "" then "No description provided"
          else trim descriptionElement.text
        Except.ok (some {
          applicationNumber := removeWhitespace (trim applicationNumberElement.text)
          address := trim addressElement.text
          description := description
          informationUrl := url
          commentUrl := CommentUrl
          scrapeDate := scrapeDate
          receivedDate := receivedDate })
  | _, _ => Except.ok none

/-! ### The legacy row-clustering algorithm of convertPdfToText -/

/-- A sub-run of a text run in the legacy parsed-PDF JSON: the field T
carries the URL-encoded text. -/
structure Run where
  T : String
  deriving DecidableEq

/-- A text run of the legacy parsed-PDF JSON: a position and the list of
sub-runs R. -/
structure PdfText where
  x : ℚ
  y : ℚ
  R : List Run
  deriving DecidableEq

/-- A page of the legacy parsed-PDF JSON. -/
structure PdfPage where
  Texts : List PdfText
  deriving DecidableEq

/-- The legacy parsed-PDF JSON (the Pages array of formImage). -/
structure Pdf where
  Pages : List PdfPage
  deriving DecidableEq

/-- The value of one hexadecimal digit character. -/
def hexVal (c : Char) : Option ℕ :=
  if 48 ≤ c.toNat ∧ c.toNat ≤ 57 then some (c.toNat - 48)
  else if 65 ≤ c.toNat ∧ c.toNat ≤ 70 then some (c.toNat - 55)
  else if 97 ≤ c.toNat ∧ c.toNat ≤ 102 then some (c.toNat - 87)
  else none

/-- Percent-decoding of a character list: a percent sign followed by two
hexadecimal digits becomes the character with that code. -/
def percentDecodeList : List Char → List Char
  | '%' :: a :: b :: rest =>
    match hexVal a, hexVal b with
    | some ha, some hb => Char.ofNat (16 * ha + hb) :: percentDecodeList rest
    | _, _ => '%' :: percentDecodeList (a :: b :: rest)
  | c :: rest => c :: percentDecodeList rest
  | [] => []

/-- Modelled from the spec: the external JavaScript builtin
decodeURIComponent that URL-decodes each sub-run text, restricted to
single-byte percent escapes (the ASCII range of these documents). -/
def decodeURIComponent (s : String) : String :=
  String.mk (percentDecodeList s.data)

/-- One entry of a reconstructed row: a decoded text and its x
coordinate. -/
structure RowEntry where
  text : String
  x : ℚ
  deriving DecidableEq

/-- A row being reconstructed: the representative y (the y of the text
that seeded the row) and the accumulated entries. -/
structure Row where
  y : ℚ
  data : List RowEntry
  deriving DecidableEq

/-- The row entries contributed by one text run: one entry per sub-run,
with the decoded text and the x of the run. -/
def textEntries (text : PdfText) : List RowEntry :=
  text.R.map fun r => { text := decodeURIComponent r.T, x := text.x }

/-- The tolerance-band test of the row scan:
row.y - maximumYdifference < text.y < row.y + maximumYdifference. -/
def inBand (maximumYdifference : ℚ) (row : Row) (text : PdfText) : Bool :=
  decide (row.y - maximumYdifference < text.y) &&
    decide (text.y < row.y + maximumYdifference)

/-- Appending the sub-run entries of a text to one row. -/
def attachTo (text : PdfText) (row : Row) : Row :=
  { row with data := row.data ++ textEntries text }

/-- The inner loop of the row construction: the source walks the row
array from the most recently created row backward and pushes the sub-run
entries into every row whose band contains the y of the text, recording
in foundRow whether any row matched; there is no early exit.  The
recursion below visits the later-created rows (the tail) first, matching
the backward order; since each iteration touches only its own row, the
visiting order does not affect the resulting list. -/
def scanRowsLoop (maximumYdifference : ℚ) (text : PdfText) :
    List Row → List Row × Bool
  | [] => ([], false)
  | row :: rest =>
    let result := scanRowsLoop maximumYdifference text rest
    if inBand maximumYdifference row text then (attachTo text row :: result.1, true)
    else (row :: result.1, result.2)

/-- Processing of one text during row construction: attach its entries
to every row whose band contains its y, or create a new row seeded at
its y when no row matched. -/
def addTextToRows (maximumYdifference : ℚ) (rows : List Row) (text : PdfText) : List Row :=
  let scanned := scanRowsLoop maximumYdifference text rows
  if scanned.2 then scanned.1
  else scanned.1 ++ [{ y := text.y, data := textEntries text }]

/-- The row construction for one page: texts processed in encounter
order starting from no rows. -/
def buildRows (maximumYdifference : ℚ) (texts : List PdfText) : List Row :=
  texts.foldl (addTextToRows maximumYdifference) []

/-- The |Δy| distances of every ordered pair of distinct text runs that
share the same x coordinate.  The source groups the runs of a page by
their exact x value and walks every ordered pair of distinct objects
within each group; that collection of distances is exactly the distances
over ordered pairs of distinct indices with equal x, including pairs of
distinct runs with equal y, whose distance is 0. -/
def sameXDistances (texts : List PdfText) : List ℚ :=
  texts.enum.flatMap fun p =>
    texts.enum.filterMap fun q =>
      if p.1 ≠ q.1 ∧ p.2.x = q.2.x then some |q.2.y - p.2.y| else none

/-- One iteration of the smallest-distance scan: the first distance seen
replaces the null accumulator, a later one only when strictly smaller. -/
def smallerStep (smallest : Option ℚ) (distance : ℚ) : Option ℚ :=
  match smallest with
  | none => some distance
  | some value => if distance < value then some distance else some value

/-- The running smallest of a list of distances, none while no distance
has been seen, mirroring the null-initialised smallestYValue of the
source. -/
def smallestYValueFold (distances : List ℚ) : Option ℚ :=
  distances.foldl smallerStep none

/-- The per-page row-merge tolerance: the smallest |Δy| over ordered
pairs of distinct same-x text runs, 0 when the page has no such pair. -/
def smallestYValuePage (page : PdfPage) : ℚ :=
  match smallestYValueFold (sameXDistances page.Texts) with
  | none => 0
  | some value => value

/-- Stable insertion of a row entry into an x-sorted list (before the
first entry with an x not smaller), modelling the stable
Array.prototype.sort with the x comparator. -/
def insertSortedByX (entry : RowEntry) : List RowEntry → List RowEntry
  | [] => [entry]
  | e :: rest =>
    if decide (e.x < entry.x) then e :: insertSortedByX entry rest
    else entry :: e :: rest

/-- Sorting the entries of a row by x ascending. -/
def sortByX (entries : List RowEntry) : List RowEntry :=
  entries.foldr insertSortedByX []

/-- Stable insertion of a row into a y-sorted list, modelling the stable
Array.prototype.sort with the y comparator. -/
def insertSortedByY (row : Row) : List Row → List Row
  | [] => [row]
  | r :: rest =>
    if decide (r.y < row.y) then r :: insertSortedByY row rest
    else row :: r :: rest

/-- Sorting rows by y ascending. -/
def sortByY (rows : List Row) : List Row :=
  rows.foldr insertSortedByY []

/-- Shallow embedding of convertPdfToText: per page, compute the
tolerance, build the rows, sort entries by x and rows by y, then flatten
all pages into one sequence of rows of plain strings. -/
def convertPdfToText (pdf : Pdf) : List (List String) :=
  let smallestYValueForPage := pdf.Pages.map smallestYValuePage
  let myPages := (pdf.Pages.zip smallestYValueForPage).map fun pageWithValue =>
    sortByY ((buildRows pageWithValue.2 pageWithValue.1.Texts).map fun row =>
      { row with data := sortByX row.data })
  (myPages.flatMap fun rows => rows).map fun row => row.data.map fun entry => entry.text

/-! ### Definitions following the words of the specification, for the
refinement-style claims -/

/-- The Right-direction distance exactly as the specification words it:
the squared Euclidean distance between the right edge midpoint of A and
the left edge midpoint of B, or the infinite sentinel when the left edge
of B lies left of the right edge of A minus 20% of the width of A. -/
def spec_rightDistance (A B : Element) : ℚ :=
  if B.x < A.x + A.width - A.width / 5 then MAX_VALUE
  else (B.x - (A.x + A.width)) ^ 2 + ((B.y + B.height / 2) - (A.y + A.height / 2)) ^ 2

/-- The Down-direction distance exactly as the specification words it:
the squared Euclidean distance between the bottom edge midpoint of A and
the point (min(B.x + A.width/2, B.x + B.width), B.y), or the infinite
sentinel when the top of B lies above the bottom of A minus 50% of the
height of A. -/
def spec_downDistance (A B : Element) : ℚ :=
  if B.y < A.y + A.height - A.height / 2 then MAX_VALUE
  else (min (B.x + A.width / 2) (B.x + B.width) - (A.x + A.width / 2)) ^ 2 +
    (B.y - (A.y + A.height)) ^ 2

/-- The claim's version of the row-construction step: attach the sub-run
entries only to the first matching row when scanning from the most
recently created row backward (that is, to the last-created row whose
band contains the y of the text), and to no other row. -/
def attachFirstMatch (maximumYdifference : ℚ) (text : PdfText) :
    List Row → Option (List Row)
  | [] => none
  | row :: rest =>
    match attachFirstMatch maximumYdifference text rest with
    | some rest2 => some (row :: rest2)
    | none =>
      if inBand maximumYdifference row text then some (attachTo text row :: rest)
      else none

/-- The claim's version of processing one text: first-match attachment,
or a new row when no band contains the y of the text. -/
def addTextToRowsFirstMatch (maximumYdifference : ℚ) (rows : List Row) (text : PdfText) :
    List Row :=
  match attachFirstMatch maximumYdifference text rows with
  | some rows2 => rows2
  | none => rows ++ [{ y := text.y, data := textEntries text }]

/-- convertPdfToText as the claim describes the row construction:
identical pipeline, but each text is attached only to the first matching
row in the backward scan. -/
def convertPdfToTextFirstMatch (pdf : Pdf) : List (List String) :=
  let smallestYValueForPage := pdf.Pages.map smallestYValuePage
  let myPages := (pdf.Pages.zip smallestYValueForPage).map fun pageWithValue =>
    sortByY ((pageWithValue.1.Texts.foldl (addTextToRowsFirstMatch pageWithValue.2) []).map
      fun row => { row with data := sortByX row.data })
  (myPages.flatMap fun rows => rows).map fun row => row.data.map fun entry => entry.text

/-- The claim's version of the row-merge tolerance: the minimum positive
|Δy| over same-x pairs, 0 when there is none. -/
def spec_minPositiveDy (texts : List PdfText) : ℚ :=
  match smallestYValueFold ((sameXDistances texts).filter fun q => decide (0 < q)) with
  | none => 0
  | some value => value

/-- The coordinate bound under which the amended resolver claim holds:
2^500, far beyond any coordinate a real page can produce, written as an
explicit numeral so that it evaluates without unfolding a power. -/
def coordBound : ℚ := 3273390607896141870013189696827599152216642046043064789483291368096133796404674554883270092325904157150886684127560071009217256545885393053328527589376

/-- All four fields of an element bounded by coordBound in absolute
value. -/
def Bounded (e : Element) : Prop :=
  -coordBound ≤ e.x ∧ e.x ≤ coordBound ∧
  -coordBound ≤ e.y ∧ e.y ≤ coordBound ∧
  -coordBound ≤ e.width ∧ e.width ≤ coordBound ∧
  -coordBound ≤ e.height ∧ e.height ≤ coordBound

instance (e : Element) : Decidable (Bounded e) := by
  unfold Bounded
  infer_instance

/-! ### Concrete pages, elements and records used to witness or refute
the claims -/

/-- A generic element for instantiating universally quantified claims. -/
def w1A : Element := { text := "a", x := 1, y := 2, width := 3, height := 4 }

/-- A second generic element. -/
def w1B : Element := { text := "b", x := 5, y := 6, width := 7, height := 8 }

/-- The anchor of the resolver counterexample: its height is 0, so it
does not overlap itself in the Right direction. -/
def c2m : Element := { text := "L", x := 0, y := 0, width := 5, height := 0 }

/-- The far-away candidate of the resolver counterexample: it overlaps
the anchor in the Right direction, but its squared distance exceeds even
the distance from the anchor to the placeholder element, so the scan
never selects it. -/
def c2e : Element := { text := "E", x := 2 * MAX_VALUE, y := -1, width := 1, height := 2 }

/-- A small bounded element whose label matches and which overlaps
itself, for witnessing the amended resolver claim. -/
def w2elem : Element := { text := "dev app no", x := 0, y := 0, width := 5, height := 2 }

/-- A small element for witnessing the overlap property of the
resolver. -/
def w3elem : Element := { text := "lbl", x := 0, y := 0, width := 3, height := 2 }

/-- An ordinary element with positive width and height: it overlaps
itself in both directions, yet its self-distance is the sentinel. -/
def c7elem : Element := { text := "a", x := 0, y := 0, width := 1, height := 1 }

/-- An element with zero width and positive height: self-overlapping in
the Right direction with self-distance 0. -/
def c7right : Element := { text := "r", x := 0, y := 0, width := 0, height := 1 }

/-- An element with positive width and zero height: self-overlapping in
the Down direction with self-distance 0. -/
def c7down : Element := { text := "d", x := 0, y := 0, width := 1, height := 0 }

/-- The element of the sentinel-distance demonstration: it matches its
own label and overlaps itself, at self-distance MAX_VALUE. -/
def c10elem : Element := { text := "Label", x := 0, y := 0, width := 10, height := 12 }

/-- A page on which the validation gate passes but the chained
description anchor (the isolated zero-height element carrying the
application number as a prefix of its text) has no overlapping element,
so the description resolver returns no element. -/
def c4els : List Element := [
  { text := "123/2018 extra", x := 50, y := 100, width := 5, height := 0 },
  { text := "Dev App No", x := 0, y := 0, width := 10, height := 1 },
  { text := "123/2018", x := 12, y := 0, width := 8, height := 1 },
  { text := "Property Detail", x := 0, y := 20, width := 10, height := 1 },
  { text := "10 Main St", x := 0, y := 22, width := 10, height := 1 }]

/-- A second page of the same shape as c4els with different texts and
coordinates, on which the description derivation dereferences an absent
element. -/
def c5els : List Element := [
  { text := "456/2019 note", x := 60, y := 200, width := 4, height := 0 },
  { text := "Dev App No", x := 0, y := 0, width := 12, height := 2 },
  { text := "456/2019", x := 15, y := 0, width := 9, height := 2 },
  { text := "Property Detail", x := 0, y := 30, width := 12, height := 2 },
  { text := "5 High St", x := 0, y := 33, width := 12, height := 2 }]

/-- The well-formed page of the end-to-end scenario: label and value for
the application number, and an address below the "Property Detail"
heading. -/
def w4els : List Element := [
  { text := "Dev App No", x := 0, y := 0, width := 50, height := 10 },
  { text := "123/2018", x := 55, y := 0, width := 40, height := 10 },
  { text := "Property Detail", x := 0, y := 24, width := 60, height := 10 },
  { text := "10 Main St", x := 0, y := 36, width := 60, height := 10 }]

/-- The well-formed page extended with a received-date label and
value. -/
def w6els : List Element := [
  { text := "Dev App No", x := 0, y := 0, width := 50, height := 10 },
  { text := "123/2018", x := 55, y := 0, width := 40, height := 10 },
  { text := "Application Rec\x27d Council", x := 0, y := 12, width := 80, height := 10 },
  { text := "5/03/2019", x := 85, y := 12, width := 30, height := 10 },
  { text := "Property Detail", x := 0, y := 24, width := 60, height := 10 },
  { text := "10 Main St", x := 0, y := 36, width := 60, height := 10 }]

/-- The record extracted from w6els. -/
def w6record : DevelopmentApplication := {
  applicationNumber := "123/2018"
  address := "10 Main St"
  description := "Dev App No"
  informationUrl := "u"
  commentUrl := CommentUrl
  scrapeDate := "2020-01-04"
  receivedDate := "2019-03-05" }

/-- The legacy document refuting the first-match description of the row
construction: the tolerance of the single page is 2 (the same-x pair at
y 0 and 2), and the text at y 1 falls in the band of both rows. -/
def cex8pdf : Pdf :=
  { Pages := [{ Texts := [
      { x := 0, y := 0, R := [{ T := "a" }] },
      { x := 0, y := 2, R := [{ T := "b" }] },
      { x := 5, y := 1, R := [{ T := "c" }] }] }] }

/-- The legacy page refuting the minimum-positive reading of the
tolerance: two runs share x = 0 and y = 0 (distance 0) while another
same-x pair is at distance 5. -/
def cex9page : PdfPage :=
  { Texts := [
      { x := 0, y := 0, R := [{ T := "p" }] },
      { x := 0, y := 0, R := [{ T := "q" }] },
      { x := 0, y := 5, R := [{ T := "r" }] }] }

/-- A legacy page with a single x-coordinate group and distinct y
values: its tolerance is the (positive) smallest distance, not 0. -/
def cex9oneGroup : PdfPage :=
  { Texts := [
      { x := 0, y := 0, R := [{ T := "s" }] },
      { x := 0, y := 3, R := [{ T := "t" }] }] }

/-- A legacy page with all x coordinates distinct: no same-x pair. -/
def w9empty : PdfPage :=
  { Texts := [
      { x := 0, y := 0, R := [{ T := "u" }] },
      { x := 1, y := 5, R := [{ T := "v" }] }] }

/-- A legacy page with one same-x pair at distance 3. -/
def w9page : PdfPage :=
  { Texts := [
      { x := 4, y := 0, R := [{ T := "w" }] },
      { x := 4, y := 3, R := [{ T := "z" }] }] }

/-! ### Theorems -/

set_option maxRecDepth 8000

attribute [local semireducible] Rat.mul Rat.add Rat.sub Rat.inv Rat.ofScientific

/-- The MAX_VALUE numeral is exactly (2^53 - 1) * 2^971, the largest
finite IEEE double. -/
theorem MAX_VALUE_eq : MAX_VALUE = (2 ^ 53 - 1) * 2 ^ 971 := by
  norm_num [MAX_VALUE]

/-- The Right branch of calculateDistance, by reduction of the direction
test. -/
theorem calculateDistance_right_eq (element1 element2 : Element) :
    calculateDistance element1 element2 Direction.Right =
      if element2.x < element1.x + element1.width - element1.width / 5 then MAX_VALUE
      else (element2.x - (element1.x + element1.width)) *
          (element2.x - (element1.x + element1.width)) +
        (element2.y + element2.height / 2 - (element1.y + element1.height / 2)) *
          (element2.y + element2.height / 2 - (element1.y + element1.height / 2)) := rfl

/-- The Down branch of calculateDistance, by reduction of the direction
test. -/
theorem calculateDistance_down_eq (element1 element2 : Element) :
    calculateDistance element1 element2 Direction.Down =
      if element2.y < element1.y + element1.height - element1.height / 2 then MAX_VALUE
      else (min (element2.x + element1.width / 2) (element2.x + element2.width) -
          (element1.x + element1.width / 2)) *
          (min (element2.x + element1.width / 2) (element2.x + element2.width) -
            (element1.x + element1.width / 2)) +
        (element2.y - (element1.y + element1.height)) *
          (element2.y - (element1.y + element1.height)) := rfl

/-- The Right branch of isOverlap, by reduction of the direction test. -/
theorem isOverlap_right_eq (element1 element2 : Element) :
    isOverlap element1 element2 Direction.Right =
      (decide (element2.y < element1.y + element1.height) &&
        decide (element2.y + element2.height > element1.y)) := rfl

/-- The Down branch of isOverlap, by reduction of the direction test. -/
theorem isOverlap_down_eq (element1 element2 : Element) :
    isOverlap element1 element2 Direction.Down =
      (decide (element2.x < element1.x + element1.width) &&
        decide (element2.x + element2.width > element1.x)) := rfl

/-- Claim C1: in the Right direction calculateDistance is the squared
Euclidean distance between the right edge midpoint of the first element
and the left edge midpoint of the second, with the infinite sentinel when
the left edge of the second lies left of the right edge of the first
minus 20% of its width; in the Down direction it is the squared distance
between the bottom edge midpoint of the first element and the point
(min(B.x + A.width/2, B.x + B.width), B.y), with the sentinel when the
top of the second lies above the bottom of the first minus 50% of its
height; every other direction value yields the sentinel. -/
theorem claim_C1_distance_formulas (A B : Element) (d : ℕ)
    (h0 : d ≠ Direction.Right) (h1 : d ≠ Direction.Down) :
    calculateDistance A B Direction.Right = spec_rightDistance A B ∧
    calculateDistance A B Direction.Down = spec_downDistance A B ∧
    calculateDistance A B d = MAX_VALUE := by
  refine ⟨?_, ?_, ?_⟩
  · rw [calculateDistance_right_eq]
    unfold spec_rightDistance
    split_ifs with h
    · rfl
    · ring
  · rw [calculateDistance_down_eq]
    unfold spec_downDistance
    split_ifs with h
    · rfl
    · ring
  · simp only [calculateDistance]
    rw [if_neg h0, if_neg h1]

/-- Witness for claim C1 at concrete elements and the direction value
5, which is neither Right nor Down. -/
theorem claim_C1_witness :
    calculateDistance w1A w1B Direction.Right = spec_rightDistance w1A w1B ∧
    calculateDistance w1A w1B Direction.Down = spec_downDistance w1A w1B ∧
    calculateDistance w1A w1B 5 = MAX_VALUE :=
  claim_C1_distance_formulas w1A w1B 5 (by decide) (by decide)

/-- Claim C10: on a one-element page whose element matches the label and
overlaps itself, findClosestElement returns that element even though its
distance from the anchor (itself) is the infinite sentinel MAX_VALUE:
the placeholder closest element at position MAX_VALUE has an even larger
squared distance, so the sentinel-distance candidate replaces it, and
the matched anchor is returned as its own nearest element in the Right
direction. -/
theorem claim_C10_sentinel_distance_returned :
    findClosestElement [c10elem] "Label" Direction.Right = some c10elem ∧
    calculateDistance c10elem c10elem Direction.Right = MAX_VALUE ∧
    isOverlap c10elem c10elem Direction.Right = true := by
  decide

/-- Claim C7 (amended): the reflexive identity distance(A, A, dir) = 0
under overlap(A, A, dir) does not hold in general; with self-overlap in
the Right direction the self-distance is 0 exactly when the width is 0,
and with self-overlap in the Down direction exactly when the height is 0
(an element with positive width and height overlaps itself in both
directions but has self-distance MAX_VALUE). -/
theorem claim_C7_amended (A : Element) :
    (isOverlap A A Direction.Right = true →
      (calculateDistance A A Direction.Right = 0 ↔ A.width = 0)) ∧
    (isOverlap A A Direction.Down = true →
      (calculateDistance A A Direction.Down = 0 ↔ A.height = 0)) := by
  constructor
  · intro _
    rw [calculateDistance_right_eq]
    split_ifs with hw
    · have hwpos : 0 < A.width := by linarith
      have hmax : MAX_VALUE ≠ 0 := by norm_num [MAX_VALUE]
      constructor
      · intro h; exact absurd h hmax
      · intro h; exact absurd h (by linarith)
    · have hE : (A.x - (A.x + A.width)) * (A.x - (A.x + A.width)) +
          (A.y + A.height / 2 - (A.y + A.height / 2)) *
            (A.y + A.height / 2 - (A.y + A.height / 2)) =
          A.width * A.width := by ring
      rw [hE]
      exact mul_self_eq_zero
  · intro hov
    rw [isOverlap_down_eq, Bool.and_eq_true, decide_eq_true_eq] at hov
    have hwpos : 0 < A.width := by linarith [hov.1]
    rw [calculateDistance_down_eq]
    split_ifs with hh
    · have hhpos : 0 < A.height := by linarith
      have hmax : MAX_VALUE ≠ 0 := by norm_num [MAX_VALUE]
      constructor
      · intro h; exact absurd h hmax
      · intro h; exact absurd h (by linarith)
    · have hmin : min (A.x + A.width / 2) (A.x + A.width) = A.x + A.width / 2 :=
        min_eq_left (by linarith)
      have hE : (min (A.x + A.width / 2) (A.x + A.width) - (A.x + A.width / 2)) *
          (min (A.x + A.width / 2) (A.x + A.width) - (A.x + A.width / 2)) +
          (A.y - (A.y + A.height)) * (A.y - (A.y + A.height)) =
          A.height * A.height := by
        rw [hmin]; ring
      rw [hE]
      exact mul_self_eq_zero

/-- Witness for the amended claim C7: a zero-width element has
self-distance 0 in the Right direction and a zero-height element has
self-distance 0 in the Down direction. -/
theorem claim_C7_witness :
    (calculateDistance c7right c7right Direction.Right = 0 ↔ c7right.width = 0) ∧
    (calculateDistance c7down c7down Direction.Down = 0 ↔ c7down.height = 0) :=
  ⟨(claim_C7_amended c7right).1 (by decide), (claim_C7_amended c7down).2 (by decide)⟩

/-- Counterexample to claim C7 as stated: the unit square at the origin
overlaps itself in the Right direction, yet its self-distance is the
sentinel MAX_VALUE rather than 0. -/
theorem claim_C7_counterexample :
    isOverlap c7elem c7elem Direction.Right = true ∧
    calculateDistance c7elem c7elem Direction.Right = MAX_VALUE ∧
    MAX_VALUE ≠ 0 := by
  decide

/-- The scan step keeps the accumulator untouched on a non-overlapping
candidate. -/
theorem closerStep_of_not_overlap (m : Element) (d : ℕ) (acc : Option Element)
    (e : Element) (h : isOverlap m e d = false) : closerStep m d acc e = acc := by
  simp [closerStep, h]

/-- The running closest element is never replaced when no element of the
list overlaps the anchor. -/
theorem foldl_closerStep_id (m : Element) (d : ℕ) :
    ∀ (els : List Element) (acc : Option Element),
      (∀ e ∈ els, isOverlap m e d = false) →
      els.foldl (closerStep m d) acc = acc := by
  intro els
  induction els with
  | nil => intro acc _; rfl
  | cons e els ih =>
    intro acc h
    rw [List.foldl_cons, closerStep_of_not_overlap m d acc e (h e (by simp))]
    exact ih acc fun x hx => h x (by simp [hx])

/-- Once the running closest element is a real element, it stays one. -/
theorem foldl_closerStep_isSome (m : Element) (d : ℕ) :
    ∀ (els : List Element) (a : Element),
      ∃ b, els.foldl (closerStep m d) (some a) = some b := by
  intro els
  induction els with
  | nil => intro a; exact ⟨a, rfl⟩
  | cons e els ih =>
    intro a
    rw [List.foldl_cons]
    unfold closerStep
    split
    · exact ih e
    · exact ih a

/-- The running closest element, when it is a real element, overlaps the
anchor. -/
theorem foldl_closerStep_overlap (m : Element) (d : ℕ) :
    ∀ (els : List Element) (acc : Option Element),
      (acc = none ∨ ∃ a, acc = some a ∧ isOverlap m a d = true) →
      (els.foldl (closerStep m d) acc = none ∨
        ∃ b, els.foldl (closerStep m d) acc = some b ∧ isOverlap m b d = true) := by
  intro els
  induction els with
  | nil => intro acc h; exact h
  | cons e els ih =>
    intro acc h
    rw [List.foldl_cons]
    apply ih
    by_cases hov : isOverlap m e d = true
    · unfold closerStep
      rw [hov]
      split
      · exact Or.inr ⟨e, rfl, hov⟩
      · exact h
    · rw [closerStep_of_not_overlap m d acc e (Bool.not_eq_true _ ▸ hov)]
      exact h

/-- Claim C3: whenever findClosestElement returns an element, that
element overlaps the matched anchor (the first element whose text starts
case-insensitively with the label) in the given direction. -/
theorem claim_C3_result_overlaps (elements : List Element) (text : String)
    (direction : ℕ) (found : Element)
    (h : findClosestElement elements text direction = some found) :
    ∃ matchingElement, anchorFor elements text = some matchingElement ∧
      isOverlap matchingElement found direction = true := by
  unfold findClosestElement at h
  cases hanchor : anchorFor elements text with
  | none =>
    rw [hanchor] at h
    have h' : (none : Option Element) = some found := h
    cases h'
  | some m =>
    rw [hanchor] at h
    have h' : elements.foldl (closerStep m direction) none = some found := h
    refine ⟨m, rfl, ?_⟩
    rcases foldl_closerStep_overlap m direction elements none (Or.inl rfl) with
      h0 | ⟨b, hb, hov⟩
    · rw [h'] at h0; cases h0
    · rw [h'] at hb
      injection hb with hb'
      rwa [hb']

/-- Witness for claim C3 at a one-element page: the returned element
overlaps the matched anchor. -/
theorem claim_C3_witness :
    ∃ matchingElement, anchorFor [w3elem] "lbl" = some matchingElement ∧
      isOverlap matchingElement w3elem Direction.Right = true :=
  claim_C3_result_overlaps [w3elem] "lbl" Direction.Right w3elem (by decide)

/-- A square is monotone under an interval bound. -/
theorem sq_le_of_le_of_le {a b : ℚ} (h1 : -b ≤ a) (h2 : a ≤ b) : a * a ≤ b * b := by
  nlinarith [mul_nonneg (by linarith : (0:ℚ) ≤ b - a) (by linarith : (0:ℚ) ≤ b + a)]

/-- For elements whose coordinates and dimensions are bounded by
coordBound, the directional distance from the anchor to an overlapping
candidate is strictly smaller than the distance from the anchor to the
placeholder element sitting at MAX_VALUE: the placeholder's squared
distance exceeds every value the candidate can produce, the MAX_VALUE
sentinel included. -/
theorem dist_lt_sentinel (m e : Element) (hm : Bounded m) (he : Bounded e) (d : ℕ)
    (hov : isOverlap m e d = true) :
    calculateDistance m e d < calculateDistance m sentinelElement d := by
  obtain ⟨hmx1, hmx2, hmy1, hmy2, hmw1, hmw2, hmh1, hmh2⟩ := hm
  obtain ⟨hex1, hex2, hey1, hey2, hew1, hew2, heh1, heh2⟩ := he
  have hcb : (0:ℚ) < coordBound := by norm_num [coordBound]
  have hk1 : 3 * coordBound < MAX_VALUE := by norm_num [coordBound, MAX_VALUE]
  have hk2 : MAX_VALUE <
      (MAX_VALUE - 2 * coordBound) * (MAX_VALUE - 2 * coordBound) := by
    norm_num [coordBound, MAX_VALUE]
  have hk3 : (3 * coordBound) * (3 * coordBound) + (3 * coordBound) * (3 * coordBound) <
      (MAX_VALUE - 2 * coordBound) * (MAX_VALUE - 2 * coordBound) := by
    norm_num [coordBound, MAX_VALUE]
  have hk4 : (4 * coordBound) * (4 * coordBound) + (3 * coordBound) * (3 * coordBound) <
      (MAX_VALUE - 2 * coordBound) * (MAX_VALUE - 2 * coordBound) := by
    norm_num [coordBound, MAX_VALUE]
  have h0m : 0 ≤ MAX_VALUE - 2 * coordBound := by linarith
  by_cases h0 : d = Direction.Right
  · subst h0
    rw [calculateDistance_right_eq, calculateDistance_right_eq]
    simp only [sentinelElement]
    have hgs : ¬ (MAX_VALUE < m.x + m.width - m.width / 5) := by linarith
    rw [if_neg hgs]
    have hA : MAX_VALUE - 2 * coordBound ≤ MAX_VALUE - (m.x + m.width) := by linarith
    have hAA : (MAX_VALUE - 2 * coordBound) * (MAX_VALUE - 2 * coordBound) ≤
        (MAX_VALUE - (m.x + m.width)) * (MAX_VALUE - (m.x + m.width)) :=
      mul_le_mul hA hA h0m (by linarith)
    have hB := mul_self_nonneg
      (MAX_VALUE + 0 / 2 - (m.y + m.height / 2))
    split_ifs with hge
    · linarith
    · have hd1 : (e.x - (m.x + m.width)) * (e.x - (m.x + m.width)) ≤
          (3 * coordBound) * (3 * coordBound) :=
        sq_le_of_le_of_le (by linarith) (by linarith)
      have hd2 : (e.y + e.height / 2 - (m.y + m.height / 2)) *
          (e.y + e.height / 2 - (m.y + m.height / 2)) ≤
          (3 * coordBound) * (3 * coordBound) :=
        sq_le_of_le_of_le (by linarith) (by linarith)
      linarith
  · by_cases h1 : d = Direction.Down
    · subst h1
      rw [calculateDistance_down_eq, calculateDistance_down_eq]
      simp only [sentinelElement]
      have hgs : ¬ (MAX_VALUE < m.y + m.height - m.height / 2) := by linarith
      rw [if_neg hgs]
      have hA : MAX_VALUE - 2 * coordBound ≤ MAX_VALUE - (m.y + m.height) := by linarith
      have hAA : (MAX_VALUE - 2 * coordBound) * (MAX_VALUE - 2 * coordBound) ≤
          (MAX_VALUE - (m.y + m.height)) * (MAX_VALUE - (m.y + m.height)) :=
        mul_le_mul hA hA h0m (by linarith)
      have hB := mul_self_nonneg
        (min (MAX_VALUE + m.width / 2) (MAX_VALUE + 0) - (m.x + m.width / 2))
      split_ifs with hge
      · linarith
      · have hminle := min_le_left (e.x + m.width / 2) (e.x + e.width)
        have hminge : -(2 * coordBound) ≤ min (e.x + m.width / 2) (e.x + e.width) :=
          le_min (by linarith) (by linarith)
        have hd1 : (min (e.x + m.width / 2) (e.x + e.width) - (m.x + m.width / 2)) *
            (min (e.x + m.width / 2) (e.x + e.width) - (m.x + m.width / 2)) ≤
            (4 * coordBound) * (4 * coordBound) :=
          sq_le_of_le_of_le (by linarith) (by linarith)
        have hd2 : (e.y - (m.y + m.height)) * (e.y - (m.y + m.height)) ≤
            (3 * coordBound) * (3 * coordBound) :=
          sq_le_of_le_of_le (by linarith) (by linarith)
        linarith
    · exfalso
      unfold isOverlap at hov
      rw [if_neg h0, if_neg h1] at hov
      cases hov

/-- When some element of a bounded list overlaps the anchor, the scan
ends with a real element: the first overlapping candidate replaces the
placeholder (its distance is strictly smaller by dist_lt_sentinel) and a
real closest element is never replaced by the placeholder again. -/
theorem foldl_closerStep_some_of_overlap (m : Element) (d : ℕ) (hmB : Bounded m) :
    ∀ els : List Element, (∀ x ∈ els, Bounded x) →
      (∃ e ∈ els, isOverlap m e d = true) →
      ∃ b, els.foldl (closerStep m d) none = some b := by
  intro els
  induction els with
  | nil =>
    rintro _ ⟨e, he, _⟩
    exact absurd he (List.not_mem_nil e)
  | cons e els ih =>
    rintro hB ⟨f, hf, hovf⟩
    rw [List.foldl_cons]
    by_cases hov : isOverlap m e d = true
    · have hlt := dist_lt_sentinel m e hmB (hB e (by simp)) d hov
      have hstep : closerStep m d none e = some e := by
        unfold closerStep
        rw [hov]
        simp only [Option.getD, Bool.true_and, decide_eq_true hlt, if_true]
      rw [hstep]
      exact foldl_closerStep_isSome m d els e
    · rw [closerStep_of_not_overlap m d none e (Bool.not_eq_true _ ▸ hov)]
      rcases List.mem_cons.mp hf with hfe | hfm
      · exact absurd (hfe ▸ hovf) hov
      · exact ih (fun x hx => hB x (by simp [hx])) ⟨f, hfm, hovf⟩

/-- Claim C2 (amended): for pages whose elements all have coordinates
and dimensions bounded by coordBound = 2^500 in absolute value — far
beyond anything a real document produces — findClosestElement returns
none exactly when no element's text starts with the label
(case-insensitively) or no element overlaps the matched anchor in the
given direction.  (Without the bound the equivalence fails: a candidate
at astronomical coordinates can have a squared distance at least as
large as the placeholder's own, and is then never selected.) -/
theorem claim_C2_amended (elements : List Element) (text : String) (direction : ℕ)
    (hB : ∀ e ∈ elements, Bounded e) :
    findClosestElement elements text direction = none ↔
      ∀ matchingElement, anchorFor elements text = some matchingElement →
        ∀ e ∈ elements, isOverlap matchingElement e direction = false := by
  unfold findClosestElement
  cases hanchor : anchorFor elements text with
  | none =>
    constructor
    · intro _ m hm
      cases hm
    · intro _
      rfl
  | some m =>
    have hmB : Bounded m := hB m (List.mem_of_find?_eq_some hanchor)
    constructor
    · intro hnone m' hm' e he
      have hmm : m = m' := by injection hm'
      subst hmm
      by_contra hov
      have hov' : isOverlap m e direction = true := by
        rwa [Bool.not_eq_false] at hov
      obtain ⟨b, hb⟩ :=
        foldl_closerStep_some_of_overlap m direction hmB elements hB ⟨e, he, hov'⟩
      have hnone' : elements.foldl (closerStep m direction) none = none := hnone
      rw [hnone'] at hb
      cases hb
    · intro hall
      exact foldl_closerStep_id m direction elements none fun e he =>
        hall m rfl e he

/-- Witness for the amended claim C2 at a one-element bounded page: the
anchor matches and overlaps itself, and correspondingly the resolver
does not return none. -/
theorem claim_C2_witness :
    findClosestElement [w2elem] "Dev" Direction.Right = none ↔
      ∀ matchingElement, anchorFor [w2elem] "Dev" = some matchingElement →
        ∀ e ∈ [w2elem], isOverlap matchingElement e Direction.Right = false :=
  claim_C2_amended [w2elem] "Dev" Direction.Right (by decide)

/-- Counterexample to claim C2 as stated: on the page [c2m, c2e] the
label "L" matches the anchor c2m and the element c2e overlaps it in the
Right direction, yet findClosestElement returns none — c2e sits so far
right (x = 2 * MAX_VALUE) that its squared distance is not smaller than
the placeholder's own squared distance, so the placeholder is never
replaced. -/
theorem claim_C2_counterexample :
    findClosestElement [c2m, c2e] "L" Direction.Right = none ∧
    anchorFor [c2m, c2e] "L" = some c2m ∧
    c2e ∈ [c2m, c2e] ∧
    isOverlap c2m c2e Direction.Right = true := by
  decide

/-- Reduction of parsePage when both the application-number and the
address element resolve. -/
theorem parsePage_some_some (elements : List Element) (url scrapeDate : String)
    (a b : Element) (ha : applicationNumberElementOf elements = some a)
    (hb : addressElementOf elements = some b) :
    parsePage elements url scrapeDate =
      if trim a.text == "" || trim b.text == "" ||
          startsWith (toLowerCase (trim b.text)) "property detail" then
        Except.ok none
      else
        match descriptionElementOf elements with
        | none => Except.error descriptionTypeError
        | some descriptionElement =>
          Except.ok (some {
            applicationNumber := removeWhitespace (trim a.text)
            address := trim b.text
            description :=
              if trim descriptionElement.text == "" then "No description provided"
              else trim descriptionElement.text
            informationUrl := url
            commentUrl := CommentUrl
            scrapeDate := scrapeDate
            receivedDate :=
              match receivedDateElementOf elements with
              | none => ""
              | some receivedDateElement =>
                strictDateISO (trim receivedDateElement.text) }) := by
  unfold parsePage
  rw [ha, hb]

/-- Reduction of validationFails when both anchors resolve. -/
theorem validationFails_some_some (elements : List Element)
    (a b : Element) (ha : applicationNumberElementOf elements = some a)
    (hb : addressElementOf elements = some b) :
    validationFails elements =
      (trim a.text == "" || trim b.text == "" ||
        startsWith (toLowerCase (trim b.text)) "property detail") := by
  unfold validationFails
  rw [ha, hb]

/-- Claim C4 (amended): a page on which the validation gate fires
produces no record; a page on which the gate passes produces exactly one
record provided the chained description resolver found an element —
when it did not, the derivation dereferences an undefined value instead
of emitting the record (the !== null check does not catch undefined), so
the page produces an error rather than a record. -/
theorem claim_C4_validation_gate (elements : List Element) (url scrapeDate : String) :
    (validationFails elements = true →
      parsePage elements url scrapeDate = Except.ok none) ∧
    (validationFails elements = false → descriptionElementOf elements ≠ none →
      ∃ record, parsePage elements url scrapeDate = Except.ok (some record)) := by
  cases happ : applicationNumberElementOf elements with
  | none =>
    have hpp : parsePage elements url scrapeDate = Except.ok none := by
      unfold parsePage
      rw [happ]
    have hvf : validationFails elements = true := by
      unfold validationFails
      rw [happ]
    constructor
    · intro _
      exact hpp
    · intro hfalse _
      rw [hvf] at hfalse
      exact Bool.noConfusion hfalse
  | some a =>
    cases haddr : addressElementOf elements with
    | none =>
      have hpp : parsePage elements url scrapeDate = Except.ok none := by
        unfold parsePage
        rw [happ, haddr]
      have hvf : validationFails elements = true := by
        unfold validationFails
        rw [happ, haddr]
      constructor
      · intro _
        exact hpp
      · intro hfalse _
        rw [hvf] at hfalse
        exact Bool.noConfusion hfalse
    | some b =>
      have hpp := parsePage_some_some elements url scrapeDate a b happ haddr
      have hvf := validationFails_some_some elements a b happ haddr
      constructor
      · intro h
        rw [hvf] at h
        rw [hpp, if_pos h]
      · intro h hdesc
        rw [hvf] at h
        have hne : ¬ ((trim a.text == "" || trim b.text == "" ||
            startsWith (toLowerCase (trim b.text)) "property detail") = true) := by
          rw [h]
          exact Bool.false_ne_true
        rw [hpp, if_neg hne]
        cases hdesc2 : descriptionElementOf elements with
        | none => exact absurd hdesc2 hdesc
        | some descriptionElement => exact ⟨_, rfl⟩

/-- Witness for the amended claim C4: the empty page fails the gate and
yields no record, and the well-formed page w4els passes the gate, has a
description element and yields a record. -/
theorem claim_C4_witness :
    parsePage ([] : List Element) "u" "2020-01-05" = Except.ok none ∧
    ∃ record, parsePage w4els "u" "2020-01-05" = Except.ok (some record) :=
  ⟨(claim_C4_validation_gate [] "u" "2020-01-05").1 (by decide),
   (claim_C4_validation_gate w4els "u" "2020-01-05").2 (by decide) (by decide)⟩

/-- Counterexample to claim C4 as stated: on the page c4els every gate
condition is false (so the claim predicts exactly one record), yet no
record is emitted — the description anchor is the isolated zero-height
element, nothing overlaps it, and the derivation faults on the absent
description element instead of producing the record. -/
theorem claim_C4_counterexample :
    validationFails c4els = false ∧
    descriptionElementOf c4els = none ∧
    parsePage c4els "url" "2020-01-02" = Except.error descriptionTypeError := by
  decide

/-- Claim C5, evaluated at the failing page: the gate passes, the
description element is absent, and the derivation raises the modelled
TypeError instead of falling back to "No description provided" — the
source checks descriptionElement !== null although the resolver returns
undefined, and then dereferences .text. -/
theorem claim_C5_description_throws :
    validationFails c5els = false ∧
    descriptionElementOf c5els = none ∧
    parsePage c5els "url" "2020-01-03" = Except.error descriptionTypeError := by
  decide

/-- Claim C6: the receivedDate of every emitted record is the strict
D/MM/YYYY parse of the trimmed text of the receivedDate element,
ISO-formatted when it is a valid calendar date and the empty string when
the element is absent or the text does not strictly parse; in
particular "5/03/2019" becomes "2019-03-05" and "32/13/2019" (an
invalid calendar date) becomes the empty string. -/
theorem claim_C6_receivedDate :
    (∀ (elements : List Element) (url scrapeDate : String)
        (record : DevelopmentApplication),
      parsePage elements url scrapeDate = Except.ok (some record) →
      record.receivedDate =
        (match receivedDateElementOf elements with
          | none => ""
          | some receivedDateElement => strictDateISO (trim receivedDateElement.text))) ∧
    strictDateISO "5/03/2019" = "2019-03-05" ∧
    strictDateISO "32/13/2019" = "" := by
  refine ⟨?_, by decide, by decide⟩
  intro elements url scrapeDate record h
  cases happ : applicationNumberElementOf elements with
  | none =>
    unfold parsePage at h
    rw [happ] at h
    have h2 : (Except.ok none : Except String (Option DevelopmentApplication)) =
        Except.ok (some record) := h
    injection h2 with h3
    cases h3
  | some applicationNumberElement =>
    cases haddr : addressElementOf elements with
    | none =>
      unfold parsePage at h
      rw [happ, haddr] at h
      have h2 : (Except.ok none : Except String (Option DevelopmentApplication)) =
          Except.ok (some record) := h
      injection h2 with h3
      cases h3
    | some addressElement =>
      rw [parsePage_some_some elements url scrapeDate applicationNumberElement
        addressElement happ haddr] at h
      by_cases hg : (trim applicationNumberElement.text == "" ||
          trim addressElement.text == "" ||
          startsWith (toLowerCase (trim addressElement.text)) "property detail") = true
      · rw [if_pos hg] at h
        injection h with h3
        cases h3
      · rw [if_neg hg] at h
        cases hdesc : descriptionElementOf elements with
        | none =>
          rw [hdesc] at h
          exact Except.noConfusion h
        | some descriptionElement =>
          rw [hdesc] at h
          injection h with h3
          injection h3 with h4
          subst h4
          rfl

/-- Witness for claim C6: on the page w6els the record is emitted and
its receivedDate is the ISO-formatted strict parse of the trimmed text
of the resolved receivedDate element. -/
theorem claim_C6_witness :
    w6record.receivedDate =
      (match receivedDateElementOf w6els with
        | none => ""
        | some receivedDateElement => strictDateISO (trim receivedDateElement.text)) :=
  claim_C6_receivedDate.1 w6els "u" "2020-01-04" w6record (by decide)

/-- The backward row scan visits every row, attaching the text to each
row whose band contains its y and reporting whether any matched. -/
theorem scanRowsLoop_eq (maximumYdifference : ℚ) (text : PdfText) :
    ∀ rows : List Row,
      scanRowsLoop maximumYdifference text rows =
        (rows.map fun row =>
            if inBand maximumYdifference row text then attachTo text row else row,
          rows.any fun row => inBand maximumYdifference row text) := by
  intro rows
  induction rows with
  | nil => rfl
  | cons row rest ih =>
    rw [List.map_cons, List.any_cons]
    unfold scanRowsLoop
    rw [ih]
    by_cases hb : inBand maximumYdifference row text = true
    · simp [hb]
    · simp [Bool.not_eq_true] at hb
      simp [hb]

/-- The processing of one text: attach to every matching row, or append
a fresh row when no band matched. -/
theorem addTextToRows_eq (maximumYdifference : ℚ) (rows : List Row) (text : PdfText) :
    addTextToRows maximumYdifference rows text =
      if rows.any fun row => inBand maximumYdifference row text then
        rows.map fun row =>
          if inBand maximumYdifference row text then attachTo text row else row
      else rows ++ [{ y := text.y, data := textEntries text }] := by
  unfold addTextToRows
  rw [scanRowsLoop_eq]
  by_cases h : (rows.any fun row => inBand maximumYdifference row text) = true
  · simp [h]
  · simp only [Bool.not_eq_true] at h
    rw [h]
    simp only [Bool.false_eq_true, if_false]
    have hmap : (rows.map fun row =>
        if inBand maximumYdifference row text then attachTo text row else row) = rows := by
      rw [List.any_eq_false] at h
      have : ∀ row ∈ rows,
          (if inBand maximumYdifference row text then attachTo text row else row) = row := by
        intro row hrow
        rw [if_neg]
        intro hband
        exact absurd hband (by simpa using h row hrow)
      calc rows.map (fun row =>
            if inBand maximumYdifference row text then attachTo text row else row)
          = rows.map id := List.map_congr_left this
        _ = rows := List.map_id rows
    rw [hmap]

/-- Claim C8 (amended): each fragment is processed in encounter order,
scanning the rows from the most recently created backward; its sub-run
texts are appended to EVERY row whose representative y satisfies
row.y - tol < text.y < row.y + tol (the scan has no early exit, so not
only the first matching row receives them), and a new row seeded at the
fragment's y is created exactly when no row's band contains its y. -/
theorem claim_C8_attach_to_every_matching_row (maximumYdifference : ℚ)
    (text : PdfText) (rows : List Row) :
    scanRowsLoop maximumYdifference text rows =
      (rows.map fun row =>
          if inBand maximumYdifference row text then attachTo text row else row,
        rows.any fun row => inBand maximumYdifference row text) ∧
    addTextToRows maximumYdifference rows text =
      (if rows.any fun row => inBand maximumYdifference row text then
        rows.map fun row =>
          if inBand maximumYdifference row text then attachTo text row else row
      else rows ++ [{ y := text.y, data := textEntries text }]) :=
  ⟨scanRowsLoop_eq maximumYdifference text rows,
    addTextToRows_eq maximumYdifference rows text⟩

/-- Counterexample to claim C8 as stated: on cex8pdf the tolerance is 2
and the text at y = 1 lies in the band of both rows (seeded at y = 0 and
y = 2), so the code attaches its text "c" to both rows, while the
claim's first-match reading attaches it only to the most recently
created row. -/
theorem claim_C8_counterexample :
    convertPdfToText cex8pdf = [["a", "c"], ["b", "c"]] ∧
    convertPdfToTextFirstMatch cex8pdf = [["a"], ["b", "c"]] := by
  decide

/-- With tolerance 0 no band contains any y. -/
theorem inBand_zero (row : Row) (text : PdfText) : inBand 0 row text = false := by
  unfold inBand
  rw [sub_zero, add_zero]
  rcases lt_trichotomy row.y text.y with h | h | h
  · simp [h, asymm h]
  · simp [h]
  · simp [asymm h]

/-- With tolerance 0 every text starts its own row. -/
theorem foldl_addTextToRows_zero :
    ∀ (texts : List PdfText) (rows : List Row),
      texts.foldl (addTextToRows 0) rows =
        rows ++ texts.map fun t => { y := t.y, data := textEntries t } := by
  intro texts
  induction texts with
  | nil => intro rows; simp
  | cons t ts ih =>
    intro rows
    have hstep : addTextToRows 0 rows t = rows ++ [{ y := t.y, data := textEntries t }] := by
      rw [addTextToRows_eq]
      have hany : (rows.any fun row => inBand 0 row t) = false := by
        simp [inBand_zero]
      rw [hany]
      simp
    rw [List.foldl_cons, hstep, ih, List.map_cons, List.append_assoc,
      List.singleton_append]

/-- One step of the smallest-distance fold, once a value is present:
the result is the least of the seed and the traversed distances. -/
theorem foldl_smallerStep_some :
    ∀ (l : List ℚ) (a : ℚ),
      ∃ v, l.foldl smallerStep (some a) = some v ∧ (v = a ∨ v ∈ l) ∧ v ≤ a ∧
        ∀ q ∈ l, v ≤ q := by
  intro l
  induction l with
  | nil => intro a; exact ⟨a, rfl, Or.inl rfl, le_refl a, by simp⟩
  | cons d ds ih =>
    intro a
    rw [List.foldl_cons]
    by_cases hd : d < a
    · have hstep : smallerStep (some a) d = some d := by simp [smallerStep, hd]
      rw [hstep]
      obtain ⟨v, hv, hmem, hle, hall⟩ := ih d
      refine ⟨v, hv, ?_, by linarith, ?_⟩
      · rcases hmem with h2 | h2
        · exact Or.inr (by simp [h2])
        · exact Or.inr (by simp [h2])
      · intro q hq
        rcases List.mem_cons.mp hq with h2 | h2
        · subst h2; exact hle
        · exact hall q h2
    · have hstep : smallerStep (some a) d = some a := by simp [smallerStep, hd]
      rw [hstep]
      obtain ⟨v, hv, hmem, hle, hall⟩ := ih a
      refine ⟨v, hv, ?_, hle, ?_⟩
      · rcases hmem with h2 | h2
        · exact Or.inl h2
        · exact Or.inr (by simp [h2])
      · intro q hq
        rcases List.mem_cons.mp hq with h2 | h2
        · subst h2; exact le_trans hle (le_of_not_lt hd)
        · exact hall q h2

/-- Claim C9 (amended): the per-page tolerance is the minimum of ALL
|Δy| distances over ordered pairs of distinct same-x fragments — zero
distances included, so a same-x pair of fragments at equal y forces
tolerance 0 regardless of other pairs — and 0 exactly when no same-x
pair exists (a page whose fragments all share one x and have distinct y
values gets the positive minimum, not 0); with tolerance 0 every
fragment starts its own row, so two fragments at different y values
never merge. -/
theorem claim_C9_tolerance (page : PdfPage) (texts : List PdfText) :
    (sameXDistances page.Texts = [] → smallestYValuePage page = 0) ∧
    (sameXDistances page.Texts ≠ [] →
      smallestYValuePage page ∈ sameXDistances page.Texts ∧
      ∀ q ∈ sameXDistances page.Texts, smallestYValuePage page ≤ q) ∧
    buildRows 0 texts = texts.map fun t => { y := t.y, data := textEntries t } := by
  refine ⟨?_, ?_, ?_⟩
  · intro h
    unfold smallestYValuePage smallestYValueFold
    rw [h]
    rfl
  · intro h
    cases hl : sameXDistances page.Texts with
    | nil => exact absurd hl h
    | cons d ds =>
      obtain ⟨v, hv, hmem, hle, hall⟩ := foldl_smallerStep_some ds d
      have hpage : smallestYValuePage page = v := by
        unfold smallestYValuePage smallestYValueFold
        rw [hl, List.foldl_cons, show smallerStep none d = some d from rfl, hv]
      rw [hpage]
      constructor
      · rcases hmem with h2 | h2
        · simp [h2]
        · simp [h2]
      · intro q hq
        rcases List.mem_cons.mp hq with h2 | h2
        · subst h2; exact hle
        · exact hall q h2
  · unfold buildRows
    rw [foldl_addTextToRows_zero texts []]
    rfl

/-- Witness for the amended claim C9: a page with all x coordinates
distinct gets tolerance 0, and a page with one same-x pair at distance 3
gets tolerance 3, the least listed distance. -/
theorem claim_C9_witness :
    smallestYValuePage w9empty = 0 ∧
    (smallestYValuePage w9page ∈ sameXDistances w9page.Texts ∧
      ∀ q ∈ sameXDistances w9page.Texts, smallestYValuePage w9page ≤ q) :=
  ⟨(claim_C9_tolerance w9empty []).1 (by decide),
    (claim_C9_tolerance w9page []).2.1 (by decide)⟩

/-- Counterexample to claim C9 as stated: on cex9page the minimum
positive |Δy| is 5 but the computed tolerance is 0, because the two
fragments sharing x = 0 and y = 0 contribute the (non-positive)
distance 0; moreover cex9oneGroup has a single x-coordinate group and
its tolerance is 3, not 0 as the claim's consequence asserts. -/
theorem claim_C9_counterexample :
    smallestYValuePage cex9page = 0 ∧
    spec_minPositiveDy cex9page.Texts = 5 ∧
    smallestYValuePage cex9oneGroup = 3 ∧
    (cex9oneGroup.Texts.map fun t => t.x) = [0, 0] := by
  decide

end Scraper
